import Mathlib

/-!
Verification development for the social-media-visuals-automation pipeline.

The Python sources are shallowly embedded here:
* `scorecard_api.py` : `nv_process_data`, `results_vault_process_data`,
  `process_data`, and the per-match fetch/fallback loop of `main.py`;
* `data_processing.py` : `SponsorDataProcessor.data_wrangling`;
* `image_generation.py` : the vertical-position computation shared by
  `generate_batting_image` / `generate_bowling_image`;
* `main.py` : the aggregation skeleton of `main`.

JSON dictionaries are embedded as structures whose `Option` fields model
`dict.get` (with `none` standing for an absent key, or a JSON null where the
code treats the two alike). Numbers are rationals. Statements that can raise
in Python are embedded in `Except String`, the message naming the Python
exception. DataFrames are lists of records; a nullable DataFrame cell is a
`Cell` (a number, a string, a boolean, or NaN/null).
-/

/-! ### Python string primitives (structural, so they evaluate in the kernel)

`pyIn` is Python's substring test `needle in hay`; `pyReplace` is
`str.replace(old, new)` (all non-overlapping occurrences, left to right);
`pyStrip` is `str.strip()`; `pyStartsWith` is `str.startswith`. -/

def isPrefixB : List Char → List Char → Bool
  | [], _ => true
  | _ :: _, [] => false
  | a :: as, b :: bs => a = b && isPrefixB as bs

def containsB (needle : List Char) : List Char → Bool
  | [] => needle.isEmpty
  | h :: t => isPrefixB needle (h :: t) || containsB needle t

def pyIn (needle hay : String) : Bool := containsB needle.data hay.data

def pyStartsWith (s pre : String) : Bool := isPrefixB pre.data s.data

def replaceLAux (old new : List Char) : Nat → List Char → List Char
  | 0, l => l
  | _ + 1, [] => []
  | fuel + 1, h :: t =>
    if isPrefixB old (h :: t) && !old.isEmpty then
      new ++ replaceLAux old new fuel (t.drop (old.length - 1))
    else
      h :: replaceLAux old new fuel t

def pyReplace (s old new : String) : String :=
  ⟨replaceLAux old.data new.data s.data.length s.data⟩

def isPySpace (c : Char) : Bool :=
  c = ' ' || c = '\t' || c = '\n' || c = '\r' || c = '\x0b' || c = '\x0c'

def dropLeadingSpace : List Char → List Char
  | [] => []
  | h :: t => if isPySpace h then dropLeadingSpace t else h :: t

def pyStrip (s : String) : String :=
  ⟨(dropLeadingSpace (dropLeadingSpace s.data).reverse).reverse⟩

/-! ### Numeric helpers

`round2` is Python's `round(x, 2)` (banker's rounding at the second decimal
place); `truncQ` is Python's `int(x)` (truncation toward zero). -/

def roundHalfEven (q : ℚ) : ℤ :=
  let f : ℤ := ⌊q⌋
  let r : ℚ := q - f
  if r < 1 / 2 then f
  else if 1 / 2 < r then f + 1
  else if f % 2 = 0 then f else f + 1

def round2 (q : ℚ) : ℚ := (roundHalfEven (q * 100) : ℚ) / 100

def truncQ (q : ℚ) : ℤ := if 0 ≤ q then ⌊q⌋ else ⌈q⌉

/-! ### The canonical record schema (DataFrame rows) -/

/-- One DataFrame cell: a number, a string, a boolean, or NaN/None. -/
inductive Cell where
  | num (q : ℚ)
  | str (s : String)
  | bool (b : Bool)
  | null
deriving DecidableEq

def cellN : Option ℚ → Cell
  | some q => .num q
  | none => .null

def cellS : Option String → Cell
  | some s => .str s
  | none => .null

def cellB : Option Bool → Cell
  | some b => .bool b
  | none => .null

structure BattingRecord where
  PlayerTeamName : String
  OppositionTeamName : String
  PlayerName : Cell
  Runs : Cell
  Balls : Cell
  Minutes : Cell
  Fours : Cell
  Sixes : Cell
  StrikeRate : Cell
  HowOut : Cell
  IsDismissed : Cell
deriving DecidableEq

structure BowlingRecord where
  PlayerTeamName : String
  OppositionTeamName : String
  PlayerName : Cell
  Overs : Cell
  Maidens : Cell
  Runs : Cell
  Wickets : Cell
  Economy : Cell
  Dots : Cell
  Fours : Cell
  Sixes : Cell
  NoBalls : Cell
  Wides : Cell
deriving DecidableEq

/-! ### Upstream payload shapes

Shape A is the NVPlay response (`Match`/`Innings`); shape B is the Results
Vault response (`MatchTeams`/`home_name`/`away_name`). `Payload` carries the
top-level keys either parser or the dispatcher inspects; `others` counts any
further top-level keys (it only matters for Python dict truthiness). -/

structure BatsmanA where
  PlayerName : Option String
  Runs : Option ℚ
  Balls : Option ℚ
  Minutes : Option ℚ
  Fours : Option ℚ
  Sixes : Option ℚ
  StrikeRate : Option ℚ
  HowOut : Option String
  IsDismissed : Option Bool
deriving DecidableEq

structure BowlerA where
  PlayerName : Option String
  Overs : Option ℚ
  Maidens : Option ℚ
  Runs : Option ℚ
  Wickets : Option ℚ
  Economy : Option ℚ
  Dots : Option ℚ
  Fours : Option ℚ
  Sixes : Option ℚ
  NoBalls : Option ℚ
  Wides : Option ℚ
deriving DecidableEq

structure InningsA where
  BattingTeamName : Option String
  BattingCard : List BatsmanA
  BowlingCard : List BowlerA
deriving DecidableEq

structure MatchInfo where
  Team1Name : String
  Team2Name : String
deriving DecidableEq

structure TeamMember where
  player_id : Nat
  player_name2 : Option String
deriving DecidableEq

structure PlayerPerf where
  type_tag : String
  player_id : Option Nat
  player_name : Option String
  runs : Option ℚ
  balls : Option ℚ
  minutes : Option ℚ
  fours : Option ℚ
  sixes : Option ℚ
  strike_rate : Option ℚ
  dismissal_text : Option String
  overs : Option ℚ
  maidens : Option ℚ
  wickets : Option ℚ
  dot_balls : Option ℚ
  no_balls : Option ℚ
  wides : Option ℚ
deriving DecidableEq

structure InningsB where
  PlayerPerfs : List PlayerPerf
deriving DecidableEq

structure MatchTeam where
  team_name : String
  TeamMembers : List TeamMember
  Innings : List InningsB
deriving DecidableEq

structure Payload where
  Match : Option MatchInfo
  Innings : Option (List InningsA)
  MatchTeams : Option (List MatchTeam)
  home_name : Option String
  away_name : Option String
  others : Nat := 0
deriving DecidableEq

/-! ### Parser A — `ScorecardAPICall.nv_process_data`

`nvTeamInfo` is the team-number/opposition derivation at the top of the
method; `nvLoop` is the `for innings in data.get('Innings', [])` loop. -/

def mkBatA (team_number opposition : String) (b : BatsmanA) : BattingRecord :=
  { PlayerTeamName := team_number
    OppositionTeamName := opposition
    PlayerName := cellS b.PlayerName
    Runs := .num (round2 (b.Runs.getD 0))
    Balls := cellN b.Balls
    Minutes := cellN b.Minutes
    Fours := cellN b.Fours
    Sixes := cellN b.Sixes
    StrikeRate := cellN b.StrikeRate
    HowOut := cellS b.HowOut
    IsDismissed := cellB b.IsDismissed }

def mkBowlA (team_number opposition : String) (b : BowlerA) : BowlingRecord :=
  { PlayerTeamName := team_number
    OppositionTeamName := opposition
    PlayerName := cellS b.PlayerName
    Overs := cellN b.Overs
    Maidens := cellN b.Maidens
    Runs := cellN b.Runs
    Wickets := cellN b.Wickets
    Economy := cellN b.Economy
    Dots := cellN b.Dots
    Fours := cellN b.Fours
    Sixes := cellN b.Sixes
    NoBalls := cellN b.NoBalls
    Wides := cellN b.Wides }

def nvTeamInfo (team_name : String) (d : Payload) : String × String :=
  let m := d.Match.getD { Team1Name := "", Team2Name := "" }
  if pyIn team_name m.Team1Name then
    (pyStrip (pyReplace m.Team1Name team_name ""), m.Team2Name)
  else
    (pyStrip (pyReplace m.Team2Name team_name ""), m.Team1Name)

def nvLoop (team_name team_number opposition : String) :
    List InningsA → List BattingRecord × List BowlingRecord
  | [] => ([], [])
  | i :: rest =>
    let acc := nvLoop team_name team_number opposition rest
    if i.BattingTeamName = some (team_name ++ " " ++ team_number) then
      (i.BattingCard.map (mkBatA team_number opposition) ++ acc.1, acc.2)
    else
      (acc.1, i.BowlingCard.map (mkBowlA team_number opposition) ++ acc.2)

def nv_process_data (team_name : String) (d : Payload) :
    List BattingRecord × List BowlingRecord :=
  let tno := nvTeamInfo team_name d
  nvLoop team_name tno.1 tno.2 (d.Innings.getD [])

/-! ### Parser B — `ScorecardAPICall.results_vault_process_data`

In the source, the line `player_id_to_full_name = {}` sits inside the
`else:` branch of the home/away test (one indentation level deeper than the
comment above it), so when the club name occurs in `home_name` the dictionary
is never initialised and the first reference to it — while registering the
first `TeamMembers` entry, or else while resolving the name of the first
`PlayerPerfs` entry — raises `UnboundLocalError`. The embedding returns
`Except.error` in exactly those runs. -/

def buildDict (teams : List MatchTeam) : Nat → Option (Option String) :=
  teams.foldl
    (fun m t =>
      t.TeamMembers.foldl
        (fun m p => fun k => if k = p.player_id then some p.player_name2 else m k) m)
    (fun _ => none)

def rvFullName (dict : Nat → Option (Option String)) (perf : PlayerPerf) : Option String :=
  let looked :=
    match perf.player_id with
    | some pid => dict pid
    | none => none
  match looked with
  | some v => v
  | none => perf.player_name

def mkBatB (team_number opposition : String) (name : Option String) (perf : PlayerPerf) :
    BattingRecord :=
  { PlayerTeamName := team_number
    OppositionTeamName := opposition
    PlayerName := cellS name
    Runs := cellN perf.runs
    Balls := cellN perf.balls
    Minutes := cellN perf.minutes
    Fours := cellN perf.fours
    Sixes := cellN perf.sixes
    StrikeRate := cellN perf.strike_rate
    HowOut := cellS perf.dismissal_text
    IsDismissed := .bool
      (match perf.dismissal_text with
       | none => false
       | some s => !(s = "" || s = "dnb" || s = "no")) }

def mkBowlB (team_number opposition : String) (name : Option String) (perf : PlayerPerf) :
    BowlingRecord :=
  let overs : ℚ := perf.overs.getD 0
  let runs : ℚ := perf.runs.getD 0
  { PlayerTeamName := team_number
    OppositionTeamName := opposition
    PlayerName := cellS name
    Overs := .num overs
    Maidens := cellN perf.maidens
    Runs := .num runs
    Wickets := cellN perf.wickets
    Economy := if overs = 0 then Cell.null else .num (round2 (runs / overs))
    Dots := cellN perf.dot_balls
    Fours := Cell.null
    Sixes := Cell.null
    NoBalls := cellN perf.no_balls
    Wides := cellN perf.wides }

def rvPerfRow (team_number opposition : String) (dict : Nat → Option (Option String))
    (team_is_lightcliffe : Bool) (perf : PlayerPerf) :
    Option (BattingRecord ⊕ BowlingRecord) :=
  let name := rvFullName dict perf
  if pyStartsWith perf.type_tag "Batting" && team_is_lightcliffe then
    some (.inl (mkBatB team_number opposition name perf))
  else if pyStartsWith perf.type_tag "Bowling" && !team_is_lightcliffe then
    some (.inr (mkBowlB team_number opposition name perf))
  else
    none

def rvCollect (rows : List (BattingRecord ⊕ BowlingRecord)) :
    List BattingRecord × List BowlingRecord :=
  rows.foldr
    (fun row acc =>
      match row with
      | .inl r => (r :: acc.1, acc.2)
      | .inr r => (acc.1, r :: acc.2))
    ([], [])

def rvRows (team_name team_number opposition : String)
    (dict : Nat → Option (Option String)) (teams : List MatchTeam) :
    List (BattingRecord ⊕ BowlingRecord) :=
  teams.flatMap fun team =>
    team.Innings.flatMap fun innings =>
      innings.PlayerPerfs.filterMap
        (rvPerfRow team_number opposition dict (pyIn team_name team.team_name))

def results_vault_process_data (team_name : String) (d : Payload) :
    Except String (List BattingRecord × List BowlingRecord) :=
  let team1 := d.home_name.getD ""
  let team2 := d.away_name.getD ""
  let teams := d.MatchTeams.getD []
  if pyIn team_name team1 then
    -- home branch: `player_id_to_full_name` was only initialised in the
    -- `else` branch, so its first reference raises
    if teams.any (fun t => !t.TeamMembers.isEmpty)
        || teams.any (fun t => t.Innings.any (fun i => !i.PlayerPerfs.isEmpty)) then
      .error "UnboundLocalError: player_id_to_full_name"
    else
      .ok ([], [])
  else
    let team_number := pyStrip (pyReplace team2 team_name "")
    let opposition := team1
    let dict := buildDict teams
    .ok (rvCollect (rvRows team_name team_number opposition dict teams))

/-! ### Dispatcher — `ScorecardAPICall.process_data` -/

def process_data (team_name : String) (d : Payload) :
    Except String (List BattingRecord × List BowlingRecord) :=
  if d.Match.isSome then
    .ok (nv_process_data team_name d)
  else if d.MatchTeams.isSome then
    results_vault_process_data team_name d
  else
    .ok ([], [])

/-! ### Per-match fetch with fallback — the loop body of `main.py`

An API call either raises (`throws` — HTTP error or malformed JSON) or
returns a payload. `fetch_match` is the `try/except` chain of `main`'s loop
body: validate the NVPlay response; on any exception fall back — once — to
the Results Vault call and validate that; on a second exception the match is
skipped (`none`). The `Attempt` trace records which endpoints were called. -/

inductive ApiResult where
  | throws
  | returns (p : Payload)
deriving DecidableEq

structure Network where
  nv : ApiResult
  rv : ApiResult
deriving DecidableEq

inductive Attempt where
  | nvCall
  | rvCall
deriving DecidableEq

/-- Python truthiness of the payload dict (`not data`). -/
def dictTruthy (p : Payload) : Bool :=
  p.Match.isSome || p.Innings.isSome || p.MatchTeams.isSome
    || p.home_name.isSome || p.away_name.isSome || p.others != 0

/-- `not data.get("Innings")` is false: key present with a non-empty list. -/
def inningsNonempty (p : Payload) : Bool :=
  match p.Innings with
  | some l => !l.isEmpty
  | none => false

/-- The primary response passes both `raise ValueError` guards. -/
def nvAccepts (p : Payload) : Bool :=
  dictTruthy p && p.Match.isSome && inningsNonempty p

/-- The fallback response passes its `raise ValueError` guard. -/
def rvAccepts (p : Payload) : Bool :=
  dictTruthy p && p.MatchTeams.isSome

def rvStep (net : Network) : Option Payload × List Attempt :=
  match net.rv with
  | .returns q => (if rvAccepts q then some q else none, [.nvCall, .rvCall])
  | .throws => (none, [.nvCall, .rvCall])

def fetch_match (net : Network) : Option Payload × List Attempt :=
  match net.nv with
  | .returns p => if nvAccepts p then (some p, [.nvCall]) else rvStep net
  | .throws => rvStep net

/-- The primary attempt failed (raised, or was rejected by validation). -/
def nvFails (net : Network) : Bool :=
  match net.nv with
  | .throws => true
  | .returns p => !nvAccepts p

/-! ### `main` — aggregation skeleton

`main` indexes `match_numbers[0]` for the auth-header probe before the loop
(IndexError on an empty match list), accumulates per-match DataFrames, and
only assigns `batting_table` when at least one match produced data; the
unconditional `print(batting_table)` then raises `NameError`
(`UnboundLocalError`) when nothing was accumulated. The sponsor/report
stages that follow are outside this model; a successful run returns the
concatenated tables. -/

def accumulate (team_name : String) :
    List Payload → Except String (List (List BattingRecord × List BowlingRecord))
  | [] => .ok []
  | p :: rest =>
    match process_data team_name p with
    | .error e => .error e
    | .ok d =>
      match accumulate team_name rest with
      | .error e => .error e
      | .ok ds => .ok (d :: ds)

def main_model (team_name : String) (nets : List Network) :
    Except String (List BattingRecord × List BowlingRecord) :=
  match nets with
  | [] => .error "IndexError: match_numbers[0]"
  | _ :: _ =>
    let payloads := nets.filterMap (fun n => (fetch_match n).1)
    match accumulate team_name payloads with
    | .error e => .error e
    | .ok ds =>
      if ds.isEmpty then .error "NameError: batting_table"
      else .ok (ds.flatMap (·.1), ds.flatMap (·.2))

/-! ### Image renderer — vertical positions

Both `generate_batting_image` and `generate_bowling_image` compute
`y_positions = [int(start_y + i * (end_y - start_y) / (num_entries - 1))
for i in range(num_entries)]` with `start_y = 374`, `end_y = 1289`. Each
item divides by `num_entries - 1`; `none` models the `ZeroDivisionError`
raised when that denominator is zero while the range is non-empty. -/

def yItem (start_y end_y : ℤ) (num_entries i : Nat) : Option ℤ :=
  if (num_entries : ℤ) - 1 = 0 then none
  else some (truncQ ((start_y : ℚ) +
    (i : ℚ) * ((end_y : ℚ) - (start_y : ℚ)) / ((num_entries : ℚ) - 1)))

def traverseO : List (Option α) → Option (List α)
  | [] => some []
  | none :: _ => none
  | some a :: t => (traverseO t).map (a :: ·)

def y_positions (start_y end_y : ℤ) (num_entries : Nat) : Option (List ℤ) :=
  traverseO ((List.range num_entries).map (yItem start_y end_y num_entries))

/-! ### `SponsorDataProcessor.data_wrangling`

Name cleaning (`str.replace(r"[*†]", "")`, then the `"T Stead"` alias),
exclusion of `Extras`/`Total`, a stable multi-key sort (pandas
`sort_values` on several columns lex-sorts stably; NaN keys are placed
last in ascending and descending order alike), `head(6)`, a left merge with
the sponsor roster (each left row yields its matching roster rows, or one
row with a null sponsor), then `fillna`: over the whole merged frame for
batting, over the `Sponsor Name` column alone for bowling.

The roster is `self.result`: the `Player Name`/`Sponsor Name` pairs left
after `dropna()`, so both components are present strings. -/

def removeMarks (s : String) : String :=
  ⟨s.data.filter (fun c => !(c = '*' || c = '†'))⟩

def cleanName : Cell → Cell
  | .str s =>
    let s2 := removeMarks s
    .str (if s2 = "T Stead" then "Ted Stead" else s2)
  | c => c

def cleanBat (r : BattingRecord) : BattingRecord :=
  { r with PlayerName := cleanName r.PlayerName }

def cleanBowl (r : BowlingRecord) : BowlingRecord :=
  { r with PlayerName := cleanName r.PlayerName }

/-- `~df["PlayerName"].isin(["Extras", "Total"])`. -/
def keepRow (name : Cell) : Bool :=
  !(decide (name = Cell.str "Extras") || decide (name = Cell.str "Total"))

/-- Sort key of a cell: its numeric value, with NaN/None as `none`.
All sort-key columns built by the normalizers are numeric or null. -/
def keyQ : Cell → Option ℚ
  | .num q => some q
  | _ => none

/-- Ascending comparison with missing values last. -/
def oLeAsc : Option ℚ → Option ℚ → Bool
  | some x, some y => decide (x ≤ y)
  | some _, none => true
  | none, some _ => false
  | none, none => true

/-- Strictly-before in descending order with missing values last. -/
def oLtDesc : Option ℚ → Option ℚ → Bool
  | some x, some y => decide (y < x)
  | some _, none => true
  | none, _ => false

/-- Lexicographic "may come before": first key descending, second ascending. -/
def lexLE (k : α → Option ℚ × Option ℚ) (a b : α) : Bool :=
  oLtDesc (k a).1 (k b).1 || (decide ((k a).1 = (k b).1) && oLeAsc (k a).2 (k b).2)

def battingKey (r : BattingRecord) : Option ℚ × Option ℚ := (keyQ r.Runs, keyQ r.Balls)

def bowlingKey (r : BowlingRecord) : Option ℚ × Option ℚ := (keyQ r.Wickets, keyQ r.Runs)

def battingLE : BattingRecord → BattingRecord → Bool := lexLE battingKey

def bowlingLE : BowlingRecord → BowlingRecord → Bool := lexLE bowlingKey

/-- The relation `battingLE` as a `Prop`, for `List.insertionSort` (a stable
sort, modelling pandas' stable multi-key `sort_values`). -/
def leBat (a b : BattingRecord) : Prop := battingLE a b = true

def leBowl (a b : BowlingRecord) : Prop := bowlingLE a b = true

instance : DecidableRel leBat :=
  fun a b => inferInstanceAs (Decidable (battingLE a b = true))

instance : DecidableRel leBowl :=
  fun a b => inferInstanceAs (Decidable (bowlingLE a b = true))

def selectBatting (batting : List BattingRecord) : List BattingRecord :=
  (List.insertionSort leBat
    ((batting.map cleanBat).filter (fun r => keepRow r.PlayerName))).take 6

def selectBowling (bowling : List BowlingRecord) : List BowlingRecord :=
  (List.insertionSort leBowl
    ((bowling.map cleanBowl).filter (fun r => keepRow r.PlayerName))).take 6

/-- Roster rows whose `Player Name` equals the record's name. -/
def rosterMatches (roster : List (String × String)) (name : Cell) :
    List (String × String) :=
  roster.filter (fun e => decide (Cell.str e.1 = name))

/-- Left merge of one record: matching roster rows, else one null-sponsor row. -/
def mergeRowsB (roster : List (String × String)) (r : BattingRecord) :
    List (BattingRecord × Option String) :=
  match rosterMatches roster r.PlayerName with
  | [] => [(r, none)]
  | ms => ms.map (fun e => (r, some e.2))

def mergeRowsW (roster : List (String × String)) (r : BowlingRecord) :
    List (BowlingRecord × Option String) :=
  match rosterMatches roster r.PlayerName with
  | [] => [(r, none)]
  | ms => ms.map (fun e => (r, some e.2))

/-- `fillna("Available To Sponsor")` on one cell. -/
def fillCellB (c : Cell) : Cell :=
  if c = Cell.null then Cell.str "Available To Sponsor" else c

/-- Whole-row `fillna` (batting branch): every nullable column is filled. -/
def fillBatRec (r : BattingRecord) : BattingRecord :=
  { PlayerTeamName := r.PlayerTeamName
    OppositionTeamName := r.OppositionTeamName
    PlayerName := fillCellB r.PlayerName
    Runs := fillCellB r.Runs
    Balls := fillCellB r.Balls
    Minutes := fillCellB r.Minutes
    Fours := fillCellB r.Fours
    Sixes := fillCellB r.Sixes
    StrikeRate := fillCellB r.StrikeRate
    HowOut := fillCellB r.HowOut
    IsDismissed := fillCellB r.IsDismissed }

def fillBatRow (rs : BattingRecord × Option String) : BattingRecord × String :=
  (fillBatRec rs.1, rs.2.getD "Available To Sponsor")

/-- Bowling branch: only the `Sponsor Name` column is filled. -/
def fillBowlRow (rs : BowlingRecord × Option String) : BowlingRecord × String :=
  (rs.1, rs.2.getD "Available to Sponsor")

def top_6_batters (roster : List (String × String)) (batting : List BattingRecord) :
    List (BattingRecord × String) :=
  ((selectBatting batting).flatMap (mergeRowsB roster)).map fillBatRow

def top_6_bowlers (roster : List (String × String)) (bowling : List BowlingRecord) :
    List (BowlingRecord × String) :=
  ((selectBowling bowling).flatMap (mergeRowsW roster)).map fillBowlRow

def data_wrangling (roster : List (String × String))
    (batting : List BattingRecord) (bowling : List BowlingRecord) :
    List (BattingRecord × String) × List (BowlingRecord × String) :=
  (top_6_batters roster batting, top_6_bowlers roster bowling)

/-! ### Order lemmas for the sort comparators -/

theorem oLeAsc_total (a b : Option ℚ) : oLeAsc a b = true ∨ oLeAsc b a = true := by
  rcases a with _ | x <;> rcases b with _ | y <;> simp [oLeAsc]
  exact le_total x y

theorem oLeAsc_trans {a b c : Option ℚ} (h1 : oLeAsc a b = true) (h2 : oLeAsc b c = true) :
    oLeAsc a c = true := by
  rcases a with _ | x <;> rcases b with _ | y <;> rcases c with _ | z <;>
    simp_all [oLeAsc]
  exact h1.trans h2

theorem oLtDesc_trans {a b c : Option ℚ} (h1 : oLtDesc a b = true) (h2 : oLtDesc b c = true) :
    oLtDesc a c = true := by
  rcases a with _ | x <;> rcases b with _ | y <;> rcases c with _ | z <;>
    simp_all [oLtDesc]
  exact h2.trans h1

theorem oLtDesc_trichotomy (a b : Option ℚ) :
    a = b ∨ oLtDesc a b = true ∨ oLtDesc b a = true := by
  rcases a with _ | x
  · rcases b with _ | y
    · exact Or.inl rfl
    · exact Or.inr (Or.inr (by simp [oLtDesc]))
  · rcases b with _ | y
    · exact Or.inr (Or.inl (by simp [oLtDesc]))
    · rcases lt_trichotomy x y with h | h | h
      · exact Or.inr (Or.inr (by simp [oLtDesc, h]))
      · exact Or.inl (by rw [h])
      · exact Or.inr (Or.inl (by simp [oLtDesc, h]))

theorem oLtDesc_asymm {a b : Option ℚ} (h : oLtDesc a b = true) : oLtDesc b a = false := by
  rcases a with _ | x <;> rcases b with _ | y <;> simp_all [oLtDesc]
  exact le_of_lt h

theorem oLtDesc_irrefl (a : Option ℚ) : oLtDesc a a = false := by
  rcases a with _ | x <;> simp [oLtDesc]

theorem lexLE_total (k : α → Option ℚ × Option ℚ) (a b : α) :
    lexLE k a b = true ∨ lexLE k b a = true := by
  rcases oLtDesc_trichotomy (k a).1 (k b).1 with h | h | h
  · rcases oLeAsc_total (k a).2 (k b).2 with h2 | h2
    · exact Or.inl (by simp [lexLE, h, h2])
    · exact Or.inr (by simp [lexLE, h, h2])
  · exact Or.inl (by simp [lexLE, h])
  · exact Or.inr (by simp [lexLE, h])

theorem lexLE_trans (k : α → Option ℚ × Option ℚ) {a b c : α}
    (h1 : lexLE k a b = true) (h2 : lexLE k b c = true) : lexLE k a c = true := by
  simp only [lexLE, Bool.or_eq_true, Bool.and_eq_true, decide_eq_true_eq] at h1 h2 ⊢
  rcases h1 with h1 | ⟨h1e, h1a⟩
  · rcases h2 with h2 | ⟨h2e, _⟩
    · exact Or.inl (oLtDesc_trans h1 h2)
    · exact Or.inl (h2e ▸ h1)
  · rcases h2 with h2 | ⟨h2e, h2a⟩
    · exact Or.inl (h1e ▸ h2)
    · exact Or.inr ⟨h1e.trans h2e, oLeAsc_trans h1a h2a⟩

theorem lexLE_refl (k : α → Option ℚ × Option ℚ) (a : α) : lexLE k a a = true := by
  have h : oLeAsc (k a).2 (k a).2 = true := by
    rcases oLeAsc_total (k a).2 (k a).2 with h | h <;> exact h
  simp [lexLE, h]

instance : IsTotal BattingRecord leBat :=
  ⟨fun a b => lexLE_total battingKey a b⟩

instance : IsTrans BattingRecord leBat :=
  ⟨fun _ _ _ h1 h2 => lexLE_trans battingKey h1 h2⟩

instance : IsTotal BowlingRecord leBowl :=
  ⟨fun a b => lexLE_total bowlingKey a b⟩

instance : IsTrans BowlingRecord leBowl :=
  ⟨fun _ _ _ h1 h2 => lexLE_trans bowlingKey h1 h2⟩

/-! ### Helper lemmas -/

theorem traverseO_map_some (f : α → β) :
    ∀ l : List α, traverseO (l.map (fun a => some (f a))) = some (l.map f)
  | [] => rfl
  | a :: t => by simp [traverseO, traverseO_map_some f t]

/-! ### Claim C4 — dispatch of `process_data` on top-level key presence -/

/-- C4: `process_data` dispatches purely on top-level key presence: with a
`Match` key it applies parser A; without `Match` but with `MatchTeams` it
applies parser B; with neither it returns two empty record collections
rather than raising. -/
theorem process_data_dispatch (team_name : String) (d : Payload) :
    (d.Match.isSome = true →
        process_data team_name d = .ok (nv_process_data team_name d))
  ∧ (d.Match.isSome = false → d.MatchTeams.isSome = true →
        process_data team_name d = results_vault_process_data team_name d)
  ∧ (d.Match.isSome = false → d.MatchTeams.isSome = false →
        process_data team_name d = .ok ([], [])) := by
  refine ⟨fun h1 => ?_, fun h1 h2 => ?_, fun h1 h2 => ?_⟩
  · simp [process_data, h1]
  · simp [process_data, h1, h2]
  · simp [process_data, h1, h2]

def pShapeA : Payload :=
  { Match := some { Team1Name := "Lightcliffe CC 1st XI", Team2Name := "Foo CC 1st XI" }
    Innings := some []
    MatchTeams := none
    home_name := none
    away_name := none }

def pShapeB : Payload :=
  { Match := none
    Innings := none
    MatchTeams := some []
    home_name := some "Foo CC 1st XI"
    away_name := some "Lightcliffe CC 1st XI" }

def pShapeNone : Payload :=
  { Match := none
    Innings := none
    MatchTeams := none
    home_name := none
    away_name := none }

/-- C4 witness: the three dispatch branches at concrete payloads. -/
theorem process_data_dispatch_witness :
    process_data "Lightcliffe CC" pShapeA = .ok (nv_process_data "Lightcliffe CC" pShapeA)
  ∧ process_data "Lightcliffe CC" pShapeB = results_vault_process_data "Lightcliffe CC" pShapeB
  ∧ process_data "Lightcliffe CC" pShapeNone = .ok ([], []) :=
  ⟨(process_data_dispatch "Lightcliffe CC" pShapeA).1 rfl,
   (process_data_dispatch "Lightcliffe CC" pShapeB).2.1 rfl rfl,
   (process_data_dispatch "Lightcliffe CC" pShapeNone).2.2 rfl rfl⟩

/-! ### Claim C2 — shape-B player-name mapping

The claim asserts the mapping is built for home- and away-labelled clubs
alike, without raising. In the source, `player_id_to_full_name = {}` is
inside the `else:` (away) branch, so any shape-B payload in which the club
name occurs in `home_name` and some roster member or performance entry
exists makes the parser raise `UnboundLocalError` instead. -/

def dHomeShapeB : Payload :=
  { Match := none
    Innings := none
    MatchTeams := some
      [{ team_name := "Lightcliffe CC 2nd XI"
         TeamMembers := [{ player_id := 1, player_name2 := some "Alex Smith" }]
         Innings := [] }]
    home_name := some "Lightcliffe CC 2nd XI"
    away_name := some "Halifax CC 1st XI" }

/-- C2: evaluating the shape-B parser at a payload whose `home_name`
contains the club name (with a non-empty roster) raises — the embedded
parser returns the `UnboundLocalError` outcome, not record collections. -/
theorem rv_home_unbound_local :
    results_vault_process_data "Lightcliffe CC" dHomeShapeB =
      .error "UnboundLocalError: player_id_to_full_name" := rfl

/-! ### Claim C3 — vertical spacing of ranked entries -/

/-- C3 counterexample: with a single ranked entry the position computation
divides by zero (`none` models the `ZeroDivisionError`); no fixed single
position is produced. -/
theorem y_positions_single_entry_divzero : y_positions 374 1289 1 = none := rfl

/-- C3 (amended): with zero entries no position is computed and no division
occurs; with exactly one entry the computation divides by zero
(`ZeroDivisionError`) instead of producing a fixed single position; with
`n ≥ 2` entries the `n` positions interpolate evenly between the pixel
bounds 374 and 1289, first at 374 and last at 1289. -/
theorem y_positions_spec (n : Nat) :
    (n = 0 → y_positions 374 1289 n = some [])
  ∧ (n = 1 → y_positions 374 1289 n = none)
  ∧ (2 ≤ n → ∃ l : List ℤ, y_positions 374 1289 n = some l ∧ l.length = n
      ∧ (∀ i : Nat, i < n →
          l.getD i 0 = truncQ (((374 : ℤ) : ℚ) +
            (i : ℚ) * (((1289 : ℤ) : ℚ) - ((374 : ℤ) : ℚ)) / ((n : ℚ) - 1)))
      ∧ l.getD 0 0 = 374 ∧ l.getD (n - 1) 0 = 1289) := by
  refine ⟨fun h => by subst h; rfl, fun h => by subst h; rfl, fun h2 => ?_⟩
  have hd : ((n : ℤ) - 1) ≠ 0 := by
    have : (2 : ℤ) ≤ (n : ℤ) := by exact_mod_cast h2
    omega
  have hq : ((n : ℚ) - 1) ≠ 0 :=
    sub_ne_zero.mpr (by exact_mod_cast (by omega : n ≠ 1))
  have hitem : ∀ i : Nat, yItem 374 1289 n i =
      some (truncQ (((374 : ℤ) : ℚ) +
        (i : ℚ) * (((1289 : ℤ) : ℚ) - ((374 : ℤ) : ℚ)) / ((n : ℚ) - 1))) := by
    intro i
    simp [yItem, hd]
  have h374 : truncQ ((374 : ℤ) : ℚ) = 374 := by
    unfold truncQ
    rw [if_pos (by positivity), Int.floor_intCast]
  have h1289 : truncQ ((1289 : ℤ) : ℚ) = 1289 := by
    unfold truncQ
    rw [if_pos (by positivity), Int.floor_intCast]
  have hget : ∀ i : Nat, i < n →
      ((List.range n).map (fun j : Nat => truncQ (((374 : ℤ) : ℚ) +
        (j : ℚ) * (((1289 : ℤ) : ℚ) - ((374 : ℤ) : ℚ)) / ((n : ℚ) - 1)))).getD i 0 =
      truncQ (((374 : ℤ) : ℚ) +
        (i : ℚ) * (((1289 : ℤ) : ℚ) - ((374 : ℤ) : ℚ)) / ((n : ℚ) - 1)) := by
    intro i hi
    rw [List.getD_eq_getElem?_getD, List.getElem?_map, List.getElem?_range hi]
    rfl
  refine ⟨(List.range n).map (fun j : Nat => truncQ (((374 : ℤ) : ℚ) +
      (j : ℚ) * (((1289 : ℤ) : ℚ) - ((374 : ℤ) : ℚ)) / ((n : ℚ) - 1))), ?_, by simp, ?_, ?_, ?_⟩
  · unfold y_positions
    rw [show (List.range n).map (yItem 374 1289 n) =
        (List.range n).map (fun j : Nat => some (truncQ (((374 : ℤ) : ℚ) +
          (j : ℚ) * (((1289 : ℤ) : ℚ) - ((374 : ℤ) : ℚ)) / ((n : ℚ) - 1)))) from
      List.map_congr_left (fun i _ => hitem i)]
    exact traverseO_map_some _ _
  · intro i hi
    exact hget i hi
  · have h0 : (0 : Nat) < n := by omega
    rw [hget 0 h0, show ((374 : ℤ) : ℚ) + ((0 : Nat) : ℚ) *
        (((1289 : ℤ) : ℚ) - ((374 : ℤ) : ℚ)) / ((n : ℚ) - 1) = ((374 : ℤ) : ℚ) by
      push_cast; ring]
    exact h374
  · have hlt : n - 1 < n := by omega
    have hcast : ((n - 1 : Nat) : ℚ) = (n : ℚ) - 1 := by
      rw [Nat.cast_sub (by omega : 1 ≤ n)]
      norm_num
    rw [hget (n - 1) hlt, show ((374 : ℤ) : ℚ) + ((n - 1 : Nat) : ℚ) *
        (((1289 : ℤ) : ℚ) - ((374 : ℤ) : ℚ)) / ((n : ℚ) - 1) = ((1289 : ℤ) : ℚ) by
      rw [hcast]; field_simp]
    exact h1289

/-- C3 witness: the three regimes at the concrete entry counts 0, 1 and 3. -/
theorem y_positions_spec_witness :
    y_positions 374 1289 0 = some []
  ∧ y_positions 374 1289 1 = none
  ∧ (∃ l : List ℤ, y_positions 374 1289 3 = some l ∧ l.length = 3
      ∧ (∀ i : Nat, i < 3 →
          l.getD i 0 = truncQ (((374 : ℤ) : ℚ) +
            (i : ℚ) * (((1289 : ℤ) : ℚ) - ((374 : ℤ) : ℚ)) / (((3 : Nat) : ℚ) - 1)))
      ∧ l.getD 0 0 = 374 ∧ l.getD (3 - 1) 0 = 1289) :=
  ⟨(y_positions_spec 0).1 rfl, (y_positions_spec 1).2.1 rfl,
   (y_positions_spec 3).2.2 (by decide)⟩

/-! ### Claim C10 — `main` with no accumulated data -/

/-- C10 counterexample: with an empty match list `main` fails at the
auth-header probe's `match_numbers[0]` with `IndexError`, not with the
claimed `NameError` on the aggregated batting table. -/
theorem main_model_empty_list_index_error :
    main_model "Lightcliffe CC" [] = .error "IndexError: match_numbers[0]"
  ∧ "IndexError: match_numbers[0]" ≠ "NameError: batting_table" :=
  ⟨rfl, by decide⟩

/-- C10 (amended): with an empty match list `main` raises `IndexError` at
`match_numbers[0]` before any aggregation; with a non-empty match list in
which every match's fetch fails, no per-match DataFrame is accumulated and
`main` raises an unhandled `NameError` when it references the never-assigned
aggregated batting table. -/
theorem main_model_no_data (team_name : String) (nets : List Network) :
    (nets = [] → main_model team_name nets = .error "IndexError: match_numbers[0]")
  ∧ (nets ≠ [] → (∀ n ∈ nets, (fetch_match n).1 = none) →
      main_model team_name nets = .error "NameError: batting_table") := by
  constructor
  · intro h; subst h; rfl
  · intro hne hall
    match nets, hne with
    | n :: rest, _ =>
      have hfm : (n :: rest).filterMap (fun m => (fetch_match m).1) = [] :=
        List.filterMap_eq_nil_iff.mpr (fun a ha => hall a ha)
      simp only [main_model, hfm]
      rfl

def netBothFail : Network := { nv := .throws, rv := .throws }

/-- C10 witness: a one-match run whose only fetch fails ends in the
`NameError` on the batting table. -/
theorem main_model_no_data_witness :
    main_model "Lightcliffe CC" [netBothFail] = .error "NameError: batting_table" :=
  (main_model_no_data "Lightcliffe CC" [netBothFail]).2
    (List.cons_ne_nil _ _) (by decide)

/-! ### Claim C1 — fetch/fallback policy -/

theorem nvAccepts_eq (p : Payload) :
    nvAccepts p = (p.Match.isSome && inningsNonempty p) := by
  unfold nvAccepts dictTruthy
  cases h : p.Match.isSome <;> simp [h]

theorem rvAccepts_eq (p : Payload) : rvAccepts p = p.MatchTeams.isSome := by
  unfold rvAccepts dictTruthy
  cases h : p.MatchTeams.isSome <;> simp [h]

theorem rvStep_spec (net : Network) :
    (rvStep net).2 = [Attempt.nvCall, Attempt.rvCall]
  ∧ (∀ q, net.rv = ApiResult.returns q →
      ((rvStep net).1 = some q ↔ q.MatchTeams.isSome = true))
  ∧ (net.rv = ApiResult.throws → (rvStep net).1 = none) := by
  obtain ⟨nv, rv⟩ := net
  cases rv with
  | throws =>
    refine ⟨rfl, ?_, fun _ => rfl⟩
    intro q hq
    cases hq
  | returns q' =>
    refine ⟨rfl, ?_, ?_⟩
    · intro q hq
      have hq' : q' = q := by injection hq
      subst hq'
      rw [show (rvStep { nv := nv, rv := ApiResult.returns q' }).1 =
          (if rvAccepts q' then some q' else none) from rfl, rvAccepts_eq]
      cases hm : q'.MatchTeams.isSome <;> simp [hm]
    · intro h
      cases h

theorem fetch_match_eq_rvStep (net : Network) (h : nvFails net = true) :
    fetch_match net = rvStep net := by
  obtain ⟨nv, rv⟩ := net
  cases nv with
  | throws => rfl
  | returns p =>
    have hp : nvAccepts p = false := by
      simpa [nvFails] using h
    simp [fetch_match, hp]

/-- C1: the primary (NV) response is accepted — the loop keeps its payload
after a single primary attempt — exactly when it has a `Match` key and a
non-empty `Innings` collection; whenever the primary throws or fails
validation the trace is exactly one NV call followed by one Results Vault
call (no retry of the primary), and the fallback's payload is kept exactly
when it has a `MatchTeams` key (a throwing fallback yields no payload). -/
theorem fetch_fallback_policy (net : Network) :
    (∀ p, net.nv = ApiResult.returns p →
        (fetch_match net = (some p, [Attempt.nvCall]) ↔
          (p.Match.isSome && inningsNonempty p) = true))
  ∧ (nvFails net = true → (fetch_match net).2 = [Attempt.nvCall, Attempt.rvCall])
  ∧ (nvFails net = true → ∀ q, net.rv = ApiResult.returns q →
        ((fetch_match net).1 = some q ↔ q.MatchTeams.isSome = true))
  ∧ (nvFails net = true → net.rv = ApiResult.throws → (fetch_match net).1 = none) := by
  refine ⟨?_, ?_, ?_, ?_⟩
  · intro p hp
    obtain ⟨nv, rv⟩ := net
    cases nv with
    | throws => cases hp
    | returns p' =>
      have hp' : p' = p := by injection hp
      subst hp'
      rw [← nvAccepts_eq]
      cases hacc : nvAccepts p' with
      | true => simp [fetch_match, hacc]
      | false =>
        simp only [fetch_match, hacc, if_neg Bool.false_ne_true]
        constructor
        · intro hcontr
          have htr := congrArg Prod.snd hcontr
          rw [(rvStep_spec { nv := ApiResult.returns p', rv := rv }).1] at htr
          cases htr
        · intro hcontr
          cases hcontr
  · intro h
    rw [fetch_match_eq_rvStep net h]
    exact (rvStep_spec net).1
  · intro h q hq
    rw [fetch_match_eq_rvStep net h]
    exact (rvStep_spec net).2.1 q hq
  · intro h hq
    rw [fetch_match_eq_rvStep net h]
    exact (rvStep_spec net).2.2 hq

def netPrimaryThrows : Network := { nv := .throws, rv := .returns pShapeB }

/-- C1 witness: a throwing primary call leads to exactly one fallback call,
whose `MatchTeams`-bearing payload is kept. -/
theorem fetch_fallback_policy_witness :
    (fetch_match netPrimaryThrows).2 = [Attempt.nvCall, Attempt.rvCall]
  ∧ (fetch_match netPrimaryThrows).1 = some pShapeB :=
  ⟨(fetch_fallback_policy netPrimaryThrows).2.1 rfl,
   ((fetch_fallback_policy netPrimaryThrows).2.2.1 rfl pShapeB rfl).mpr rfl⟩

/-! ### Claim C7 — shape A drops no card entries -/

/-- C7: for a shape-A payload the parser emits one batting record per
`BattingCard` entry of each innings whose `BattingTeamName` equals
`"{club} {team_number}"`, and one bowling record per `BowlingCard` entry of
every other innings — the output lengths equal the corresponding card-entry
count sums. -/
theorem nv_no_entries_dropped (team_name : String) (d : Payload) :
    (nv_process_data team_name d).1.length =
      (((d.Innings.getD []).filter (fun i =>
          decide (i.BattingTeamName =
            some (team_name ++ " " ++ (nvTeamInfo team_name d).1)))).map
        (fun i => i.BattingCard.length)).sum
  ∧ (nv_process_data team_name d).2.length =
      (((d.Innings.getD []).filter (fun i =>
          !decide (i.BattingTeamName =
            some (team_name ++ " " ++ (nvTeamInfo team_name d).1)))).map
        (fun i => i.BowlingCard.length)).sum := by
  unfold nv_process_data
  generalize (d.Innings.getD []) = inn
  induction inn with
  | nil => exact ⟨rfl, rfl⟩
  | cons i rest ih =>
    by_cases hb : i.BattingTeamName =
        some (team_name ++ " " ++ (nvTeamInfo team_name d).1)
    · constructor
      · simp [nvLoop, hb, ih.1]
      · simp [nvLoop, hb, ih.2]
    · constructor
      · simp [nvLoop, hb, ih.1]
      · simp [nvLoop, hb, ih.2]

/-! ### Claim C6 — shape-B bowling: Economy guard, absent Fours/Sixes -/

theorem rvCollect_mem_bowling {rows : List (BattingRecord ⊕ BowlingRecord)}
    {r : BowlingRecord} : r ∈ (rvCollect rows).2 ↔ Sum.inr r ∈ rows := by
  induction rows with
  | nil => simp [rvCollect]
  | cons row rest ih =>
    cases row with
    | inl b =>
      simpa [rvCollect] using ih
    | inr w =>
      simp only [rvCollect, List.foldr_cons] at ih ⊢
      simp [ih]

/-- A bowling record produced by `rvPerfRow` comes from `mkBowlB`. -/
theorem rvPerfRow_bowling {team_number opposition : String}
    {dict : Nat → Option (Option String)} {isClub : Bool} {perf : PlayerPerf}
    {r : BowlingRecord}
    (h : rvPerfRow team_number opposition dict isClub perf =
      some (Sum.inr r)) :
    r = mkBowlB team_number opposition (rvFullName dict perf) perf := by
  unfold rvPerfRow at h
  split_ifs at h with h1 h2
  · cases h
  · exact (Sum.inr.inj (Option.some.inj h)).symm

/-- C6: every bowling record a successful shape-B parse emits has numeric
`Overs` and `Runs`; its `Economy` is null when `Overs` is 0 (no division
error) and `Runs / Overs` rounded to two decimals when `Overs > 0`; its
`Fours` and `Sixes` are always null, never zero. -/
theorem rv_bowling_economy (team_name : String) (d : Payload)
    (res : List BattingRecord × List BowlingRecord)
    (h : results_vault_process_data team_name d = .ok res) :
    ∀ r ∈ res.2, ∃ overs runs : ℚ,
      r.Overs = Cell.num overs ∧ r.Runs = Cell.num runs
      ∧ (overs = 0 → r.Economy = Cell.null)
      ∧ (0 < overs → r.Economy = Cell.num (round2 (runs / overs)))
      ∧ r.Fours = Cell.null ∧ r.Sixes = Cell.null := by
  intro r hr
  have hws : Sum.inr r ∈ rvRows team_name
      (pyStrip (pyReplace (d.away_name.getD "") team_name ""))
      (d.home_name.getD "") (buildDict (d.MatchTeams.getD []))
      (d.MatchTeams.getD []) := by
    simp only [results_vault_process_data] at h
    by_cases h1 : pyIn team_name (d.home_name.getD "") = true
    · rw [if_pos h1] at h
      by_cases h2 : (((d.MatchTeams.getD []).any fun t => !t.TeamMembers.isEmpty)
          || (d.MatchTeams.getD []).any fun t =>
              t.Innings.any fun i => !i.PlayerPerfs.isEmpty) = true
      · rw [if_pos h2] at h
        cases h
      · rw [if_neg h2] at h
        rw [← Except.ok.inj h] at hr
        exact absurd hr (List.not_mem_nil r)
    · rw [if_neg h1] at h
      rw [← Except.ok.inj h] at hr
      exact rvCollect_mem_bowling.mp hr
  obtain ⟨team, hteam, hrow⟩ := List.mem_flatMap.mp hws
  obtain ⟨innings, hinn, hperfRow⟩ := List.mem_flatMap.mp hrow
  obtain ⟨perf, hperf, hsome⟩ := List.mem_filterMap.mp hperfRow
  have hrm := rvPerfRow_bowling hsome
  subst hrm
  refine ⟨perf.overs.getD 0, perf.runs.getD 0, rfl, rfl, ?_, ?_, rfl, rfl⟩
  · intro h0
    simp [mkBowlB, h0]
  · intro hpos
    simp [mkBowlB, ne_of_gt hpos]

def perfBowlZeroOvers : PlayerPerf :=
  { type_tag := "BowlingPerf"
    player_id := none
    player_name := some "Joe Bowler"
    runs := none
    balls := none
    minutes := none
    fours := none
    sixes := none
    strike_rate := none
    dismissal_text := none
    overs := none
    maidens := none
    wickets := some 2
    dot_balls := none
    no_balls := none
    wides := none }

def dAwayShapeB : Payload :=
  { Match := none
    Innings := none
    MatchTeams := some
      [{ team_name := "Halifax CC 1st XI"
         TeamMembers := []
         Innings := [{ PlayerPerfs := [perfBowlZeroOvers] }] }]
    home_name := some "Halifax CC 1st XI"
    away_name := some "Lightcliffe CC 2nd XI" }

def recBowlZeroOvers : BowlingRecord :=
  { PlayerTeamName := "2nd XI"
    OppositionTeamName := "Halifax CC 1st XI"
    PlayerName := .str "Joe Bowler"
    Overs := .num 0
    Maidens := .null
    Runs := .num 0
    Wickets := .num 2
    Economy := .null
    Dots := .null
    Fours := .null
    Sixes := .null
    NoBalls := .null
    Wides := .null }

/-! ### Support lemmas for the sponsor-join claims -/

theorem keyQ_fillCellB (c : Cell) : keyQ (fillCellB c) = keyQ c := by
  cases c <;> simp [fillCellB, keyQ]

theorem battingKey_fillBatRec (r : BattingRecord) :
    battingKey (fillBatRec r) = battingKey r := by
  simp [battingKey, fillBatRec, keyQ_fillCellB]

theorem battingLE_fillBatRec (a b : BattingRecord) :
    battingLE (fillBatRec a) (fillBatRec b) = battingLE a b := by
  unfold battingLE lexLE
  rw [battingKey_fillBatRec, battingKey_fillBatRec]

theorem mem_rosterMatches {roster : List (String × String)} {name : Cell}
    {e : String × String} (he : e ∈ rosterMatches roster name) :
    e ∈ roster ∧ Cell.str e.1 = name := by
  have := List.mem_filter.mp he
  exact ⟨this.1, of_decide_eq_true this.2⟩

theorem rosterMatches_length_le_one {roster : List (String × String)}
    (hn : (roster.map Prod.fst).Nodup) (name : Cell) :
    (rosterMatches roster name).length ≤ 1 := by
  induction roster with
  | nil => simp [rosterMatches]
  | cons e rest ih =>
    rw [List.map_cons, List.nodup_cons] at hn
    unfold rosterMatches at ih ⊢
    rw [List.filter_cons]
    by_cases hmatch : Cell.str e.1 = name
    · rw [if_pos (by simpa using hmatch)]
      have hrest : rest.filter (fun x => decide (Cell.str x.1 = name)) = [] := by
        rw [List.filter_eq_nil_iff]
        intro a ha hdec
        have haeq : Cell.str a.1 = name := of_decide_eq_true hdec
        have hae : a.1 = e.1 := Cell.str.inj (haeq.trans hmatch.symm)
        exact hn.1 (hae ▸ List.mem_map_of_mem Prod.fst ha)
      simp [hrest]
    · rw [if_neg (by simpa using hmatch)]
      exact ih hn.2

theorem mergeRowsB_length_one {roster : List (String × String)}
    (hn : (roster.map Prod.fst).Nodup) (r : BattingRecord) :
    (mergeRowsB roster r).length = 1 := by
  unfold mergeRowsB
  cases hm : rosterMatches roster r.PlayerName with
  | nil => rfl
  | cons e ms =>
    have := rosterMatches_length_le_one hn r.PlayerName
    rw [hm] at this
    simp only [List.length_cons] at this
    simp only [List.length_map, List.length_cons]
    omega

theorem mergeRowsW_length_one {roster : List (String × String)}
    (hn : (roster.map Prod.fst).Nodup) (r : BowlingRecord) :
    (mergeRowsW roster r).length = 1 := by
  unfold mergeRowsW
  cases hm : rosterMatches roster r.PlayerName with
  | nil => rfl
  | cons e ms =>
    have := rosterMatches_length_le_one hn r.PlayerName
    rw [hm] at this
    simp only [List.length_cons] at this
    simp only [List.length_map, List.length_cons]
    omega

theorem length_flatMap_ones {f : α → List β} :
    ∀ {l : List α}, (∀ a ∈ l, (f a).length = 1) → (l.flatMap f).length = l.length
  | [], _ => rfl
  | a :: t, h => by
    rw [List.flatMap_cons, List.length_append, h a (List.mem_cons_self a t),
      length_flatMap_ones (fun b hb => h b (List.mem_cons_of_mem a hb))]
    simp [Nat.add_comm]

theorem mem_mergeRowsB {roster : List (String × String)} {r : BattingRecord}
    {x : BattingRecord × Option String} (hx : x ∈ mergeRowsB roster r) :
    x.1 = r := by
  unfold mergeRowsB at hx
  cases hm : rosterMatches roster r.PlayerName with
  | nil =>
    rw [hm] at hx
    rw [List.mem_singleton.mp hx]
  | cons e ms =>
    rw [hm] at hx
    obtain ⟨e', _, he'⟩ := List.mem_map.mp hx
    rw [← he']

theorem mem_mergeRowsW {roster : List (String × String)} {r : BowlingRecord}
    {x : BowlingRecord × Option String} (hx : x ∈ mergeRowsW roster r) :
    x.1 = r := by
  unfold mergeRowsW at hx
  cases hm : rosterMatches roster r.PlayerName with
  | nil =>
    rw [hm] at hx
    rw [List.mem_singleton.mp hx]
  | cons e ms =>
    rw [hm] at hx
    obtain ⟨e', _, he'⟩ := List.mem_map.mp hx
    rw [← he']

theorem mem_selectBatting_keep {batting : List BattingRecord} {r : BattingRecord}
    (hr : r ∈ selectBatting batting) : keepRow r.PlayerName = true := by
  unfold selectBatting at hr
  have h1 := (List.take_sublist 6 _).subset hr
  have h2 := (List.perm_insertionSort leBat _).mem_iff.mp h1
  exact (List.mem_filter.mp h2).2

theorem mem_selectBowling_keep {bowling : List BowlingRecord} {r : BowlingRecord}
    (hr : r ∈ selectBowling bowling) : keepRow r.PlayerName = true := by
  unfold selectBowling at hr
  have h1 := (List.take_sublist 6 _).subset hr
  have h2 := (List.perm_insertionSort leBowl _).mem_iff.mp h1
  exact (List.mem_filter.mp h2).2

theorem selectBatting_sorted (batting : List BattingRecord) :
    (selectBatting batting).Pairwise leBat :=
  List.Pairwise.sublist (List.take_sublist 6 _)
    (List.sorted_insertionSort leBat _)

theorem selectBowling_sorted (bowling : List BowlingRecord) :
    (selectBowling bowling).Pairwise leBowl :=
  List.Pairwise.sublist (List.take_sublist 6 _)
    (List.sorted_insertionSort leBowl _)

theorem keepRow_names {name : Cell} (h : keepRow name = true) :
    name ≠ Cell.str "Extras" ∧ name ≠ Cell.str "Total" := by
  unfold keepRow at h
  simp only [Bool.not_eq_eq_eq_not, Bool.not_true, Bool.or_eq_false_iff,
    decide_eq_false_iff_not] at h
  exact h

theorem fillCellB_keeps_names {name : Cell}
    (h : name ≠ Cell.str "Extras" ∧ name ≠ Cell.str "Total") :
    fillCellB name ≠ Cell.str "Extras" ∧ fillCellB name ≠ Cell.str "Total" := by
  unfold fillCellB
  by_cases hnull : name = Cell.null
  · rw [if_pos hnull]
    constructor <;> intro hc <;> exact absurd (Cell.str.inj hc) (by decide)
  · rw [if_neg hnull]
    exact h

/-! ### Claim C5 — top-performer selection -/

/-- C5: after excluding `Extras`/`Total` rows, `data_wrangling` returns at
most 6 batting rows ordered by (Runs descending, Balls ascending) and at
most 6 bowling rows ordered by (Wickets descending, Runs ascending); with
fewer than 6 qualifying rows it returns them all (the output length is the
minimum of 6 and the qualifying-row count — no padding). Stated under the
roster's documented uniqueness invariant (one row per player name). -/
theorem top_performers_spec (roster : List (String × String))
    (batting : List BattingRecord) (bowling : List BowlingRecord)
    (hn : (roster.map Prod.fst).Nodup) :
    (top_6_batters roster batting).length =
      min 6 ((batting.map cleanBat).filter (fun r => keepRow r.PlayerName)).length
  ∧ (top_6_batters roster batting).Pairwise (fun a b => battingLE a.1 b.1 = true)
  ∧ (∀ rs ∈ top_6_batters roster batting,
      rs.1.PlayerName ≠ Cell.str "Extras" ∧ rs.1.PlayerName ≠ Cell.str "Total")
  ∧ (top_6_bowlers roster bowling).length =
      min 6 ((bowling.map cleanBowl).filter (fun r => keepRow r.PlayerName)).length
  ∧ (top_6_bowlers roster bowling).Pairwise (fun a b => bowlingLE a.1 b.1 = true)
  ∧ (∀ rs ∈ top_6_bowlers roster bowling,
      rs.1.PlayerName ≠ Cell.str "Extras" ∧ rs.1.PlayerName ≠ Cell.str "Total") := by
  refine ⟨?_, ?_, ?_, ?_, ?_, ?_⟩
  · unfold top_6_batters
    rw [List.length_map, length_flatMap_ones (fun r _ => mergeRowsB_length_one hn r)]
    unfold selectBatting
    rw [List.length_take, List.length_insertionSort]
  · unfold top_6_batters
    rw [List.pairwise_map, List.pairwise_flatMap]
    constructor
    · intro r hr
      apply List.pairwise_of_forall_mem_list
      intro x hx y hy
      show battingLE (fillBatRow x).1 (fillBatRow y).1 = true
      rw [show (fillBatRow x).1 = fillBatRec x.1 from rfl,
        show (fillBatRow y).1 = fillBatRec y.1 from rfl,
        battingLE_fillBatRec, mem_mergeRowsB hx, mem_mergeRowsB hy]
      exact lexLE_refl battingKey r
    · apply List.Pairwise.imp ?_ (selectBatting_sorted batting)
      intro r1 r2 h12 x hx y hy
      show battingLE (fillBatRow x).1 (fillBatRow y).1 = true
      rw [show (fillBatRow x).1 = fillBatRec x.1 from rfl,
        show (fillBatRow y).1 = fillBatRec y.1 from rfl,
        battingLE_fillBatRec, mem_mergeRowsB hx, mem_mergeRowsB hy]
      exact h12
  · intro rs hrs
    unfold top_6_batters at hrs
    obtain ⟨x, hx, hfill⟩ := List.mem_map.mp hrs
    obtain ⟨r, hr, hxr⟩ := List.mem_flatMap.mp hx
    have hkeep := keepRow_names (mem_selectBatting_keep hr)
    rw [← hfill]
    show (fillBatRec x.1).PlayerName ≠ Cell.str "Extras"
      ∧ (fillBatRec x.1).PlayerName ≠ Cell.str "Total"
    rw [mem_mergeRowsB hxr]
    exact fillCellB_keeps_names hkeep
  · unfold top_6_bowlers
    rw [List.length_map, length_flatMap_ones (fun r _ => mergeRowsW_length_one hn r)]
    unfold selectBowling
    rw [List.length_take, List.length_insertionSort]
  · unfold top_6_bowlers
    rw [List.pairwise_map, List.pairwise_flatMap]
    constructor
    · intro r hr
      apply List.pairwise_of_forall_mem_list
      intro x hx y hy
      show bowlingLE (fillBowlRow x).1 (fillBowlRow y).1 = true
      rw [show (fillBowlRow x).1 = x.1 from rfl,
        show (fillBowlRow y).1 = y.1 from rfl,
        mem_mergeRowsW hx, mem_mergeRowsW hy]
      exact lexLE_refl bowlingKey r
    · apply List.Pairwise.imp ?_ (selectBowling_sorted bowling)
      intro r1 r2 h12 x hx y hy
      show bowlingLE (fillBowlRow x).1 (fillBowlRow y).1 = true
      rw [show (fillBowlRow x).1 = x.1 from rfl,
        show (fillBowlRow y).1 = y.1 from rfl,
        mem_mergeRowsW hx, mem_mergeRowsW hy]
      exact h12
  · intro rs hrs
    unfold top_6_bowlers at hrs
    obtain ⟨x, hx, hfill⟩ := List.mem_map.mp hrs
    obtain ⟨r, hr, hxr⟩ := List.mem_flatMap.mp hx
    have hkeep := keepRow_names (mem_selectBowling_keep hr)
    rw [← hfill]
    show x.1.PlayerName ≠ Cell.str "Extras" ∧ x.1.PlayerName ≠ Cell.str "Total"
    rw [mem_mergeRowsW hxr]
    exact keepRow_names (mem_selectBowling_keep hr)

def rosterW : List (String × String) := [("Jane Bat", "Acme Ltd"), ("Jim Bowl", "BowlCo")]

def batJane : BattingRecord :=
  { PlayerTeamName := "1st XI", OppositionTeamName := "Foo CC"
    PlayerName := .str "Jane Bat", Runs := .num 50, Balls := .num 30
    Minutes := .null, Fours := .num 6, Sixes := .num 1, StrikeRate := .null
    HowOut := .str "b Someone", IsDismissed := .bool true }

def batSam : BattingRecord :=
  { PlayerTeamName := "1st XI", OppositionTeamName := "Foo CC"
    PlayerName := .str "Sam Solo", Runs := .num 20, Balls := .null
    Minutes := .null, Fours := .null, Sixes := .null, StrikeRate := .null
    HowOut := .null, IsDismissed := .bool false }

def bowlJim : BowlingRecord :=
  { PlayerTeamName := "1st XI", OppositionTeamName := "Foo CC"
    PlayerName := .str "Jim Bowl", Overs := .num 8, Maidens := .num 2
    Runs := .num 20, Wickets := .num 3, Economy := .null, Dots := .null
    Fours := .null, Sixes := .null, NoBalls := .null, Wides := .null }

def bowlAnn : BowlingRecord :=
  { PlayerTeamName := "1st XI", OppositionTeamName := "Foo CC"
    PlayerName := .str "Ann Only", Overs := .num 4, Maidens := .null
    Runs := .num 35, Wickets := .num 1, Economy := .null, Dots := .null
    Fours := .null, Sixes := .null, NoBalls := .null, Wides := .null }

def batW : List BattingRecord := [batSam, batJane]

def bowlW : List BowlingRecord := [bowlAnn, bowlJim]

/-- C5 witness: concrete two-row inputs (fewer than 6 qualifying rows) with
a duplicate-free roster. -/
theorem top_performers_spec_witness :
    (top_6_batters rosterW batW).length =
      min 6 ((batW.map cleanBat).filter (fun r => keepRow r.PlayerName)).length
  ∧ (top_6_bowlers rosterW bowlW).length =
      min 6 ((bowlW.map cleanBowl).filter (fun r => keepRow r.PlayerName)).length :=
  ⟨(top_performers_spec rosterW batW bowlW (by decide)).1,
   (top_performers_spec rosterW batW bowlW (by decide)).2.2.2.1⟩

/-! ### Claim C8 — sponsor join placeholders -/

theorem fillCellB_eq_of_null {c : Cell} (h : c = Cell.null) :
    fillCellB c = Cell.str "Available To Sponsor" := by
  rw [h]; rfl

theorem fillCellB_eq_of_ne {c : Cell} (h : c ≠ Cell.null) : fillCellB c = c :=
  if_neg h

/-- C8: in the sponsor join, a selected record whose (post-normalization)
name matches no roster row yields exactly one output row carrying the exact
placeholder `"Available To Sponsor"` (batting) or `"Available to Sponsor"`
(bowling); a record with roster matches yields rows carrying the matching
roster sponsor names; the output tables are exactly the per-record joined
rows in selection order. -/
theorem sponsor_join (roster : List (String × String))
    (batting : List BattingRecord) (bowling : List BowlingRecord) :
    (∀ r ∈ selectBatting batting,
        ((∀ e ∈ roster, Cell.str e.1 ≠ r.PlayerName) →
            (mergeRowsB roster r).map fillBatRow =
              [(fillBatRec r, "Available To Sponsor")])
      ∧ ((∃ e ∈ roster, Cell.str e.1 = r.PlayerName) →
            ∀ row ∈ (mergeRowsB roster r).map fillBatRow,
              ∃ e ∈ roster, Cell.str e.1 = r.PlayerName ∧ row.2 = e.2))
  ∧ top_6_batters roster batting =
      (selectBatting batting).flatMap (fun r => (mergeRowsB roster r).map fillBatRow)
  ∧ (∀ r ∈ selectBowling bowling,
        ((∀ e ∈ roster, Cell.str e.1 ≠ r.PlayerName) →
            (mergeRowsW roster r).map fillBowlRow = [(r, "Available to Sponsor")])
      ∧ ((∃ e ∈ roster, Cell.str e.1 = r.PlayerName) →
            ∀ row ∈ (mergeRowsW roster r).map fillBowlRow,
              ∃ e ∈ roster, Cell.str e.1 = r.PlayerName ∧ row.2 = e.2))
  ∧ top_6_bowlers roster bowling =
      (selectBowling bowling).flatMap (fun r => (mergeRowsW roster r).map fillBowlRow) := by
  refine ⟨?_, ?_, ?_, ?_⟩
  · intro r _
    constructor
    · intro hno
      have hnil : rosterMatches roster r.PlayerName = [] :=
        List.filter_eq_nil_iff.mpr (fun e he => by simpa using hno e he)
      unfold mergeRowsB
      rw [hnil]
      rfl
    · rintro ⟨e0, he0, heq0⟩ row hrow
      obtain ⟨x, hx, hxeq⟩ := List.mem_map.mp hrow
      unfold mergeRowsB at hx
      cases hm : rosterMatches roster r.PlayerName with
      | nil =>
        have : e0 ∈ rosterMatches roster r.PlayerName :=
          List.mem_filter.mpr ⟨he0, decide_eq_true heq0⟩
        rw [hm] at this
        cases this
      | cons e ms =>
        rw [hm] at hx
        obtain ⟨e', he', hx'⟩ := List.mem_map.mp hx
        have he'm : e' ∈ rosterMatches roster r.PlayerName := hm ▸ he'
        obtain ⟨hmem, hstr⟩ := mem_rosterMatches he'm
        refine ⟨e', hmem, hstr, ?_⟩
        rw [← hxeq, ← hx']
        rfl
  · unfold top_6_batters
    exact List.map_flatMap _ _ _
  · intro r _
    constructor
    · intro hno
      have hnil : rosterMatches roster r.PlayerName = [] :=
        List.filter_eq_nil_iff.mpr (fun e he => by simpa using hno e he)
      unfold mergeRowsW
      rw [hnil]
      rfl
    · rintro ⟨e0, he0, heq0⟩ row hrow
      obtain ⟨x, hx, hxeq⟩ := List.mem_map.mp hrow
      unfold mergeRowsW at hx
      cases hm : rosterMatches roster r.PlayerName with
      | nil =>
        have : e0 ∈ rosterMatches roster r.PlayerName :=
          List.mem_filter.mpr ⟨he0, decide_eq_true heq0⟩
        rw [hm] at this
        cases this
      | cons e ms =>
        rw [hm] at hx
        obtain ⟨e', he', hx'⟩ := List.mem_map.mp hx
        have he'm : e' ∈ rosterMatches roster r.PlayerName := hm ▸ he'
        obtain ⟨hmem, hstr⟩ := mem_rosterMatches he'm
        refine ⟨e', hmem, hstr, ?_⟩
        rw [← hxeq, ← hx']
        rfl
  · unfold top_6_bowlers
    exact List.map_flatMap _ _ _

/-- C8 witness: the unmatched batting and bowling rows carry the two exact
placeholder casings, and the matched batting row carries the roster sponsor. -/
theorem sponsor_join_witness :
    (mergeRowsB rosterW batSam).map fillBatRow =
      [(fillBatRec batSam, "Available To Sponsor")]
  ∧ (∃ e ∈ rosterW, Cell.str e.1 = batJane.PlayerName ∧
      ((fillBatRec batJane, "Acme Ltd") : BattingRecord × String).2 = e.2)
  ∧ (mergeRowsW rosterW bowlAnn).map fillBowlRow = [(bowlAnn, "Available to Sponsor")] :=
  ⟨((sponsor_join rosterW batW bowlW).1 batSam (by decide)).1 (by decide),
   ((sponsor_join rosterW batW bowlW).1 batJane (by decide)).2
     ⟨("Jane Bat", "Acme Ltd"), by decide, by decide⟩
     (fillBatRec batJane, "Acme Ltd") (by decide),
   ((sponsor_join rosterW batW bowlW).2.2.1 bowlAnn (by decide)).1 (by decide)⟩

/-! ### Claim C9 — scope of the `fillna` calls -/

/-- C9: in the batting branch `fillna("Available To Sponsor")` is applied to
the whole merged table, so every nullable column of every output row is
non-null — a null value in any column (Balls, Minutes, …) becomes the
string `"Available To Sponsor"`, while non-null values pass through; in the
bowling branch only the sponsor column is filled and the record's columns
are left unchanged, nulls included. -/
theorem fillna_scope (roster : List (String × String))
    (batting : List BattingRecord) (bowling : List BowlingRecord) :
    (∀ r ∈ selectBatting batting, ∀ row ∈ (mergeRowsB roster r).map fillBatRow,
        row.1 = fillBatRec r
      ∧ (r.PlayerName = Cell.null → row.1.PlayerName = Cell.str "Available To Sponsor")
      ∧ (r.PlayerName ≠ Cell.null → row.1.PlayerName = r.PlayerName)
      ∧ (r.Runs = Cell.null → row.1.Runs = Cell.str "Available To Sponsor")
      ∧ (r.Runs ≠ Cell.null → row.1.Runs = r.Runs)
      ∧ (r.Balls = Cell.null → row.1.Balls = Cell.str "Available To Sponsor")
      ∧ (r.Balls ≠ Cell.null → row.1.Balls = r.Balls)
      ∧ (r.Minutes = Cell.null → row.1.Minutes = Cell.str "Available To Sponsor")
      ∧ (r.Minutes ≠ Cell.null → row.1.Minutes = r.Minutes)
      ∧ (r.Fours = Cell.null → row.1.Fours = Cell.str "Available To Sponsor")
      ∧ (r.Fours ≠ Cell.null → row.1.Fours = r.Fours)
      ∧ (r.Sixes = Cell.null → row.1.Sixes = Cell.str "Available To Sponsor")
      ∧ (r.Sixes ≠ Cell.null → row.1.Sixes = r.Sixes)
      ∧ (r.StrikeRate = Cell.null → row.1.StrikeRate = Cell.str "Available To Sponsor")
      ∧ (r.StrikeRate ≠ Cell.null → row.1.StrikeRate = r.StrikeRate)
      ∧ (r.HowOut = Cell.null → row.1.HowOut = Cell.str "Available To Sponsor")
      ∧ (r.HowOut ≠ Cell.null → row.1.HowOut = r.HowOut)
      ∧ (r.IsDismissed = Cell.null → row.1.IsDismissed = Cell.str "Available To Sponsor")
      ∧ (r.IsDismissed ≠ Cell.null → row.1.IsDismissed = r.IsDismissed))
  ∧ (∀ r ∈ selectBowling bowling, ∀ row ∈ (mergeRowsW roster r).map fillBowlRow,
      row.1 = r) := by
  constructor
  · intro r _ row hrow
    obtain ⟨x, hx, hxeq⟩ := List.mem_map.mp hrow
    have hrow1 : row.1 = fillBatRec r := by
      rw [← hxeq]
      show fillBatRec x.1 = fillBatRec r
      rw [mem_mergeRowsB hx]
    refine ⟨hrow1, ?_, ?_, ?_, ?_, ?_, ?_, ?_, ?_, ?_, ?_, ?_, ?_, ?_, ?_, ?_, ?_, ?_, ?_⟩ <;>
      intro hc <;> rw [hrow1]
    · exact fillCellB_eq_of_null hc
    · exact fillCellB_eq_of_ne hc
    · exact fillCellB_eq_of_null hc
    · exact fillCellB_eq_of_ne hc
    · exact fillCellB_eq_of_null hc
    · exact fillCellB_eq_of_ne hc
    · exact fillCellB_eq_of_null hc
    · exact fillCellB_eq_of_ne hc
    · exact fillCellB_eq_of_null hc
    · exact fillCellB_eq_of_ne hc
    · exact fillCellB_eq_of_null hc
    · exact fillCellB_eq_of_ne hc
    · exact fillCellB_eq_of_null hc
    · exact fillCellB_eq_of_ne hc
    · exact fillCellB_eq_of_null hc
    · exact fillCellB_eq_of_ne hc
    · exact fillCellB_eq_of_null hc
    · exact fillCellB_eq_of_ne hc
  · intro r _ row hrow
    obtain ⟨x, hx, hxeq⟩ := List.mem_map.mp hrow
    rw [← hxeq]
    show x.1 = r
    exact mem_mergeRowsW hx

/-- C9 witness: a selected batting record with a null `Balls` cell has it
replaced by the literal fill string, while the bowling row's record —
nulls included — is unchanged. -/
theorem fillna_scope_witness :
    ((fillBatRec batSam, "Available To Sponsor") : BattingRecord × String).1.Balls =
      Cell.str "Available To Sponsor"
  ∧ ((bowlAnn, "Available to Sponsor") : BowlingRecord × String).1 = bowlAnn :=
  ⟨((fillna_scope rosterW batW bowlW).1 batSam (by decide)
      (fillBatRec batSam, "Available To Sponsor") (by decide)).2.2.2.2.2.1 rfl,
   (fillna_scope rosterW batW bowlW).2 bowlAnn (by decide)
      (bowlAnn, "Available to Sponsor") (by decide)⟩

/-- C6 witness: a concrete shape-B bowling entry with zero overs yields a
record with null Economy, Fours and Sixes. -/
theorem rv_bowling_economy_witness :
    ∃ overs runs : ℚ,
      recBowlZeroOvers.Overs = Cell.num overs
      ∧ recBowlZeroOvers.Runs = Cell.num runs
      ∧ (overs = 0 → recBowlZeroOvers.Economy = Cell.null)
      ∧ (0 < overs → recBowlZeroOvers.Economy = Cell.num (round2 (runs / overs)))
      ∧ recBowlZeroOvers.Fours = Cell.null ∧ recBowlZeroOvers.Sixes = Cell.null :=
  rv_bowling_economy "Lightcliffe CC" dAwayShapeB ([], [recBowlZeroOvers]) rfl
    recBowlZeroOvers (List.mem_singleton.mpr rfl)
